import Mathlib

/-!
Verification development for the chimney-steam particle prototype
(src/mid.cpp, src/midterm.cpp).

CPU simulation side (mid.cpp) is embedded over the exact rationals:

* the seeded random pipeline (std::mt19937 rng(12345) fed through
  uniform_real_distribution<float> urf(-1, 1)) is modelled as an abstract
  output stream `stream : Nat -> Rat` together with a cursor `rngIdx` in the
  simulation state; a fixed seed fixes the stream, and the contract of `urf`
  is that every drawn value lies in [-1, 1);
* `std::sin` and `std::cos` (external libm calls) are abstracted as
  function parameters `sinf cosf : Rat -> Rat` of the integrator;
* every other arithmetic operation of the source is translated literally,
  with float constants read as exact rationals.

GPU shader stages (geomSrc/fragSrc in mid.cpp, particleGS/particleFS in
midterm.cpp) are embedded over the reals, since they use sqrt and pow.
-/

namespace Mid

/-- MAX_PARTICLES = 1000 (mid.cpp line 29). -/
def MAX_PARTICLES : Nat := 1000

/-- struct Particle (mid.cpp lines 22-27): position, velocity, remaining
life in seconds, visual size. -/
structure Particle where
  x : ℚ
  y : ℚ
  z : ℚ
  vx : ℚ
  vy : ℚ
  vz : ℚ
  life : ℚ
  size : ℚ
deriving DecidableEq, Repr

/-- The mutable global simulation state of mid.cpp: the particle vector
(line 30), the spawn accumulator (line 220) and the position of the seeded
random generator in its output stream (lines 31-32). -/
structure SimState where
  particles : List Particle
  spawnAcc : ℚ
  rngIdx : Nat
deriving DecidableEq, Repr

/-- spawnParticle (mid.cpp lines 202-215): a silent no-op once the pool
holds MAX_PARTICLES entries, otherwise push_back of a fresh particle whose
jitters consume eight successive values of the seeded random stream. -/
def spawnParticle (stream : Nat → ℚ) (ex ey ez : ℚ) (s : SimState) : SimState :=
  if MAX_PARTICLES ≤ s.particles.length then s
  else
    let r : Nat → ℚ := fun k => stream (s.rngIdx + k)
    let p : Particle :=
      { x := ex + r 0 * (2/100)
        y := ey + r 1 * (1/100)
        z := ez + r 2 * (1/100)
        vx := r 3 * (2/100)
        vy := 4/10 + r 4 * (15/100)
        vz := r 5 * (2/100)
        life := 18/10 + r 6 * (6/10)
        size := 3/100 + 3/100 * ((r 7 + 1) / 2) }
    { particles := s.particles ++ [p], spawnAcc := s.spawnAcc, rngIdx := s.rngIdx + 8 }

/-- Fuel that suffices for the spawn while-loop: the accumulator drops by
one each iteration and the loop exits once it is below one, so the ceiling
of the accumulator bounds the iteration count. -/
def spawnFuel (a : ℚ) : Nat := Int.toNat ⌈a⌉

/-- The body of the spawn while-loop of mid.cpp lines 235-238
(`while (spawnAccumulator >= 1.0) { spawnParticle(...); spawnAccumulator -= 1.0; }`),
written with explicit fuel so that the definition is structural. -/
def spawnLoopAux (stream : Nat → ℚ) (ex ey ez : ℚ) : Nat → SimState → SimState
  | 0, s => s
  | fuel + 1, s =>
    if 1 ≤ s.spawnAcc then
      let s1 := spawnParticle stream ex ey ez s
      spawnLoopAux stream ex ey ez fuel
        { particles := s1.particles, spawnAcc := s1.spawnAcc - 1, rngIdx := s1.rngIdx }
    else s

/-- The spawn while-loop of mid.cpp lines 235-238. -/
def spawnLoop (stream : Nat → ℚ) (ex ey ez : ℚ) (s : SimState) : SimState :=
  spawnLoopAux stream ex ey ez (spawnFuel s.spawnAcc) s

/-- The per-particle mutation of one pass of the update loop
(mid.cpp lines 242-262): wind acceleration, per-frame multiplicative drag,
explicit Euler position update, size growth, life decrement.  The libm
calls std::sin and std::cos are abstracted as `sinf` and `cosf`; `t` is the
wall-clock time of the frame and `dt` the (already clamped) time step. -/
def updateParticle (sinf cosf : ℚ → ℚ) (t dt : ℚ) (p : Particle) : Particle :=
  let windX := 5/100 * sinf (t * (13/10) + p.x * 10)
  let windZ := 3/100 * cosf (t * (17/10) + p.z * 8)
  let vx := (p.vx + windX * dt) * (995/1000)
  let vy := p.vy * (999/1000)
  let vz := (p.vz + windZ * dt) * (995/1000)
  { x := p.x + vx * dt
    y := p.y + vy * dt
    z := p.z + vz * dt
    vx := vx
    vy := vy
    vz := vz
    life := p.life - dt
    size := p.size * (1 + 25/100 * dt) }

/-- The death test of mid.cpp line 263, evaluated on the already-updated
particle: `p.life <= 0.0f || p.y > 1.2f`. -/
def particleDead (p : Particle) : Bool :=
  decide (p.life ≤ 0) || decide ((12 : ℚ)/10 < p.y)

/-- Swap-with-last removal (mid.cpp lines 265-266) as seen from the suffix
of already-processed survivors: the overall last element overwrites the
slot of the dying particle, and the back is popped. -/
def swapInLast (l : List Particle) : List Particle :=
  match l.getLast? with
  | none => []
  | some q => q :: l.dropLast

/-- The update loop of mid.cpp lines 241-268, which walks the vector from
the highest index down to index 0.  `front` is the still-unprocessed
prefix of the vector listed from the current index downwards (that is, in
reverse vector order), and `back` is the already-processed suffix of
survivors in vector order.  A particle that dies at the current slot is
replaced by the overall last element, which is the last element of `back`
(or the dying particle itself when `back` is empty). -/
def updateLoopAux (upd : Particle → Particle) : List Particle → List Particle → List Particle
  | [], back => back
  | p :: front, back =>
    let q := upd p
    if particleDead q then
      updateLoopAux upd front (swapInLast back)
    else
      updateLoopAux upd front (q :: back)

/-- One full pass of the update loop (mid.cpp lines 241-268) over the
particle vector. -/
def updatePass (sinf cosf : ℚ → ℚ) (t dt : ℚ) (v : List Particle) : List Particle :=
  updateLoopAux (updateParticle sinf cosf t dt) v.reverse []

/-- The clamp of mid.cpp line 231: `if (dt > 0.05) dt = 0.05;`.  Only a
large delta is clamped; a negative delta passes through unchanged. -/
def clampDt (raw : ℚ) : ℚ := if 1/20 < raw then 1/20 else raw

/-- The per-frame work of the main loop after the time-step clamp
(mid.cpp lines 234-268): emission-rate accumulation, the spawn loop, and
the particle update pass.  `t` is the wall-clock time of the frame and
`dt` the clamped time step. -/
def frameCore (sinf cosf : ℚ → ℚ) (stream : Nat → ℚ) (rate ex ey ez : ℚ)
    (s : SimState) (t dt : ℚ) : SimState :=
  let s1 : SimState :=
    { particles := s.particles, spawnAcc := s.spawnAcc + dt * rate, rngIdx := s.rngIdx }
  let s2 := spawnLoop stream ex ey ez s1
  { particles := updatePass sinf cosf t dt s2.particles
    spawnAcc := s2.spawnAcc
    rngIdx := s2.rngIdx }

/-- One iteration of the main loop (mid.cpp lines 228-268): the clock
advances by the raw delta `raw`, the time step used by every other
computation is `clampDt raw`, and the frame returns the new state together
with the new `lastTime`. -/
def stepFrame (sinf cosf : ℚ → ℚ) (stream : Nat → ℚ) (rate ex ey ez : ℚ)
    (s : SimState) (tPrev raw : ℚ) : SimState × ℚ :=
  (frameCore sinf cosf stream rate ex ey ez s (tPrev + raw) (clampDt raw), tPrev + raw)

/-- The main loop run over a whole sequence of raw frame deltas, starting
from state `s` at wall-clock time `t0`. -/
def runSim (sinf cosf : ℚ → ℚ) (stream : Nat → ℚ) (rate ex ey ez : ℚ) :
    SimState → ℚ → List ℚ → SimState × ℚ
  | s, t0, [] => (s, t0)
  | s, t0, d :: ds =>
    let sd := stepFrame sinf cosf stream rate ex ey ez s t0 d
    runSim sinf cosf stream rate ex ey ez sd.1 sd.2 ds

/-- spawnRate = 150 particles per second (mid.cpp line 219). -/
def spawnRate : ℚ := 150

/-- Emitter position (mid.cpp lines 223-225). -/
def emitterX : ℚ := 0

/-- Emitter position (mid.cpp lines 223-225). -/
def emitterY : ℚ := -(6/10)

/-- Emitter position (mid.cpp lines 223-225). -/
def emitterZ : ℚ := 0

/-- The state at program start: empty pool, zero accumulator, generator at
the beginning of its seeded stream (mid.cpp lines 30, 200, 220). -/
def initState : SimState := { particles := [], spawnAcc := 0, rngIdx := 0 }

/-- A full program run of mid.cpp with the configured constants: the
remaining run inputs are the seeded random stream, the initial wall-clock
value `t0` and the sequence of raw frame deltas. -/
def runMid (sinf cosf : ℚ → ℚ) (stream : Nat → ℚ) (t0 : ℚ) (dts : List ℚ) : SimState × ℚ :=
  runSim sinf cosf stream spawnRate emitterX emitterY emitterZ initState t0 dts

/-- Iterated calls of spawnParticle with a fixed emission point: the
sequence of calls issued by the spawn while-loop. -/
def spawnN (stream : Nat → ℚ) (ex ey ez : ℚ) : Nat → SimState → SimState
  | 0, s => s
  | n + 1, s => spawnN stream ex ey ez n (spawnParticle stream ex ey ez s)

/-- An arbitrary sequence of spawnParticle calls, each with its own
emission point: the observable spawn interface of the pool. -/
def spawnCalls (stream : Nat → ℚ) : List (ℚ × ℚ × ℚ) → SimState → SimState
  | [], s => s
  | c :: cs, s => spawnCalls stream cs (spawnParticle stream c.1 c.2.1 c.2.2 s)

/-- The effect of the spawn while-loop of mid.cpp lines 235-238 on the
accumulator alone, together with its iteration count: each iteration
checks `spawnAccumulator >= 1.0` and subtracts one. -/
def spawnIterAux : Nat → ℚ → Nat × ℚ
  | 0, a => (0, a)
  | fuel + 1, a =>
    if 1 ≤ a then
      let r := spawnIterAux fuel (a - 1)
      (r.1 + 1, r.2)
    else (0, a)

/-- Iteration count and final accumulator of the spawn while-loop when
entered with accumulator value `a`. -/
def spawnIter (a : ℚ) : Nat × ℚ := spawnIterAux (spawnFuel a) a

/-- Number of spawnParticle calls issued by the frame of mid.cpp
lines 234-238 when the frame starts with accumulator `a` and uses time
step `dt`: the accumulator first grows by `dt * rate` and the while-loop
then drains it. -/
def frameSpawnCount (rate dt a : ℚ) : Nat := (spawnIter (a + dt * rate)).1

/-- Accumulator value retained for the next frame by mid.cpp
lines 234-238. -/
def frameAcc (rate dt a : ℚ) : ℚ := (spawnIter (a + dt * rate)).2

/-- Accumulator value before frame `n` of a run of constant-`dt`,
constant-`rate` frames started with accumulator 0. -/
def accSeq (rate dt : ℚ) : Nat → ℚ
  | 0 => 0
  | n + 1 => frameAcc rate dt (accSeq rate dt n)

/-- Total number of spawnParticle calls issued over the first `n`
constant-`dt`, constant-`rate` frames started with accumulator 0. -/
def totalSpawned (rate dt : ℚ) : Nat → Nat
  | 0 => 0
  | n + 1 => totalSpawned rate dt n + frameSpawnCount rate dt (accSeq rate dt n)

/-! ### Buffer packing and the per-frame GL actions (mid.cpp lines 270-310) -/

/-- The packed streaming buffer of mid.cpp lines 271-278: four floats
`x, y, z, size` pushed per live particle, in pool order. -/
def packBuffer : List Particle → List ℚ
  | [] => []
  | p :: ps => p.x :: p.y :: p.z :: p.size :: packBuffer ps

/-- The observable GL actions of one frame of mid.cpp lines 270-310:
the packed buffer, whether glBufferSubData was called (line 283 guards it
with `!buffer.empty()`), whether glDrawArrays was called (line 309 is
unconditional), and the point count passed to glDrawArrays. -/
structure RenderActions where
  buffer : List ℚ
  uploadIssued : Bool
  drawIssued : Bool
  drawCount : Nat
deriving DecidableEq, Repr

/-- The GL-facing portion of one frame of mid.cpp (lines 270-310). -/
def renderFrame (ps : List Particle) : RenderActions :=
  let buffer := packBuffer ps
  { buffer := buffer
    uploadIssued := !buffer.isEmpty
    drawIssued := true
    drawCount := ps.length }

/-! ### GPU shader stages, over the reals -/

/-- A 3-component float vector of the shader stages. -/
structure Vec3 where
  x : ℝ
  y : ℝ
  z : ℝ

/-- Componentwise vector addition. -/
def v3add (a b : Vec3) : Vec3 := ⟨a.x + b.x, a.y + b.y, a.z + b.z⟩

/-- Componentwise vector subtraction. -/
def v3sub (a b : Vec3) : Vec3 := ⟨a.x - b.x, a.y - b.y, a.z - b.z⟩

/-- Scalar multiple of a vector. -/
def v3scale (c : ℝ) (v : Vec3) : Vec3 := ⟨c * v.x, c * v.y, c * v.z⟩

/-- GLSL length: the Euclidean norm. -/
noncomputable def v3len (v : Vec3) : ℝ := Real.sqrt (v.x ^ 2 + v.y ^ 2 + v.z ^ 2)

/-- GLSL normalize: the vector divided by its length. -/
noncomputable def v3normalize (v : Vec3) : Vec3 := v3scale (1 / v3len v) v

/-- GLSL mix on vectors: componentwise linear interpolation
mix(a, b, t) = a * (1 - t) + b * t. -/
def v3mix (a b : Vec3) (t : ℝ) : Vec3 :=
  ⟨a.x * (1 - t) + b.x * t, a.y * (1 - t) + b.y * t, a.z * (1 - t) + b.z * t⟩

/-- One vertex emitted by a geometry shader: position plus the two
texture coordinates. -/
structure GSVertex where
  pos : Vec3
  tu : ℝ
  tv : ℝ

/-- The geometry shader geomSrc of mid.cpp (lines 57-100): for one input
point it normalizes cameraRight and cameraUp, scales them by the particle
size, and emits the four triangle-strip corners
center - right - up, center - right + up, center + right - up,
center + right + up with texture coordinates (0,0), (0,1), (1,0), (1,1)
in that order. -/
noncomputable def geomExpand (cameraRight cameraUp : Vec3) (center : Vec3) (s : ℝ) :
    List GSVertex :=
  let right := v3scale s (v3normalize cameraRight)
  let up := v3scale s (v3normalize cameraUp)
  [ ⟨v3sub (v3sub center right) up, 0, 0⟩,
    ⟨v3add (v3sub center right) up, 0, 1⟩,
    ⟨v3sub (v3add center right) up, 1, 0⟩,
    ⟨v3add (v3add center right) up, 1, 1⟩ ]

/-- The geometry stage run over every packed point of a frame; the
geometry shader is invoked once per point primitive of the draw call. -/
noncomputable def geomExpandAll (cameraRight cameraUp : Vec3) :
    List (Vec3 × ℝ) → List GSVertex
  | [] => []
  | pt :: pts =>
    geomExpand cameraRight cameraUp pt.1 pt.2 ++ geomExpandAll cameraRight cameraUp pts

/-- GLSL smoothstep(edge0, edge1, x):
t = clamp((x - edge0) / (edge1 - edge0), 0, 1); t * t * (3 - 2 * t). -/
noncomputable def smoothstep (e0 e1 x : ℝ) : ℝ :=
  let t := max 0 (min 1 ((x - e0) / (e1 - e0)))
  t * t * (3 - 2 * t)

/-- Distance of a texture coordinate from the quad center (0.5, 0.5),
shared by both fragment shaders. -/
noncomputable def uvDist (texCoord : ℝ × ℝ) : ℝ :=
  Real.sqrt ((texCoord.1 - 1/2) ^ 2 + (texCoord.2 - 1/2) ^ 2)

/-- The alpha computed by the fragment shader fragSrc of mid.cpp
(lines 102-123): smoothstep falloff from the quad center, the 0.6 power
for the steam look, then the global alpha factor. -/
noncomputable def fragAlpha (texCoord : ℝ × ℝ) (globalAlpha : ℝ) : ℝ :=
  smoothstep (1/2) 0 (uvDist texCoord) ^ ((6 : ℝ)/10) * globalAlpha

/-- The output of fragSrc: none models discard (line 120,
`if (alpha < 0.01) discard;`), otherwise the pale steam colour with the
computed alpha. -/
noncomputable def fragOutput (texCoord : ℝ × ℝ) (globalAlpha : ℝ) : Option (Vec3 × ℝ) :=
  if fragAlpha texCoord globalAlpha < 1/100 then none
  else some (⟨9/10, 95/100, 1⟩, fragAlpha texCoord globalAlpha)

/-! ### The midterm.cpp shader variants -/

/-- The geometry shader particleGS of midterm.cpp (lines 62-110): right
and up are the first two row vectors of the view matrix, used without
normalization; the quad half-extent is 0.18 * alpha; the four corners are
emitted in the order
center + (-right - up) * size (0,0), center + (right - up) * size (1,0),
center + (-right + up) * size (0,1), center + (right + up) * size (1,1).
The final uProj * uView projection applied to gl_Position is omitted: the
claims concern the corner construction and the vertex count. -/
noncomputable def particleGSExpand (right up : Vec3) (center : Vec3) (alpha : ℝ) : List GSVertex :=
  let size := (18/100 : ℝ) * alpha
  [ ⟨v3add center (v3scale size (v3sub (v3scale (-1) right) up)), 0, 0⟩,
    ⟨v3add center (v3scale size (v3sub right up)), 1, 0⟩,
    ⟨v3add center (v3scale size (v3add (v3scale (-1) right) up)), 0, 1⟩,
    ⟨v3add center (v3scale size (v3add right up)), 1, 1⟩ ]

/-- The fragment shader particleFS of midterm.cpp (lines 111-131): the
fragment is discarded when its distance from the quad center exceeds 0.5;
otherwise the output alpha is gAlpha * smoothstep(0.5, 0.25, d) * 0.8 and
the colour interpolates between two greys by 1 - gAlpha.  There is no
alpha-threshold discard in this shader. -/
noncomputable def particleFSOut (texCoord : ℝ × ℝ) (gAlpha : ℝ) : Option (Vec3 × ℝ) :=
  let d := uvDist texCoord
  if 1/2 < d then none
  else
    let edge := smoothstep (1/2) (1/4) d
    some (v3mix ⟨85/100, 88/100, 92/100⟩ ⟨9/10, 9/10, 95/100⟩ (1 - gAlpha),
      gAlpha * edge * (8/10))

/-! ## Basic facts about spawning -/

theorem spawnParticle_spawnAcc (stream : Nat → ℚ) (ex ey ez : ℚ) (s : SimState) :
    (spawnParticle stream ex ey ez s).spawnAcc = s.spawnAcc := by
  unfold spawnParticle
  split <;> rfl

theorem spawnParticle_full (stream : Nat → ℚ) (ex ey ez : ℚ) (s : SimState)
    (h : MAX_PARTICLES ≤ s.particles.length) :
    spawnParticle stream ex ey ez s = s := by
  unfold spawnParticle
  exact if_pos h

theorem spawnParticle_length_le (stream : Nat → ℚ) (ex ey ez : ℚ) (s : SimState)
    (h : s.particles.length ≤ MAX_PARTICLES) :
    (spawnParticle stream ex ey ez s).particles.length ≤ MAX_PARTICLES := by
  unfold spawnParticle
  split
  · exact h
  · next hlt =>
    simp only [List.length_append, List.length_cons, List.length_nil]
    omega

theorem spawnCalls_length_le (stream : Nat → ℚ) (calls : List (ℚ × ℚ × ℚ)) (s : SimState)
    (h : s.particles.length ≤ MAX_PARTICLES) :
    (spawnCalls stream calls s).particles.length ≤ MAX_PARTICLES := by
  induction calls generalizing s with
  | nil => exact h
  | cons c cs ih =>
    exact ih _ (spawnParticle_length_le stream c.1 c.2.1 c.2.2 s h)

/-- C2: for every sequence of spawn calls the live count stays within the
fixed capacity, and a spawn attempted at full capacity is a silent no-op
that leaves the whole state unchanged. -/
theorem C2_pool_bounded (stream : Nat → ℚ) (calls : List (ℚ × ℚ × ℚ)) (s : SimState)
    (h : s.particles.length ≤ MAX_PARTICLES) :
    (spawnCalls stream calls s).particles.length ≤ MAX_PARTICLES ∧
    (∀ ex ey ez s2, (s2 : SimState).particles.length = MAX_PARTICLES →
      spawnParticle stream ex ey ez s2 = s2) :=
  ⟨spawnCalls_length_le stream calls s h,
   fun ex ey ez s2 h2 => spawnParticle_full stream ex ey ez s2 (le_of_eq h2.symm)⟩

theorem C2_pool_bounded_witness :
    initState.particles.length ≤ MAX_PARTICLES ∧
    (spawnCalls (fun _ => 0) [(0, 0, 0), (1, 2, 3)] initState).particles.length ≤ MAX_PARTICLES := by
  refine ⟨by decide, ?_⟩
  exact (C2_pool_bounded (fun _ => 0) [(0, 0, 0), (1, 2, 3)] initState (by decide)).1

/-- C6 counterexample: with the seeded generator producing -1/2 (a value
inside the [-1, 1) range of urf) at the lifetime draw, the freshly spawned
particle has life 1.8 - 0.3 = 1.5 seconds, strictly below 1.8. -/
theorem C6_counterexample :
    ((spawnParticle (fun _ => -(1/2)) emitterX emitterY emitterZ initState).particles.map
        Particle.life = [3/2]) ∧
    ¬ (18/10 ≤ (3/2 : ℚ)) ∧ (-1 ≤ -((1 : ℚ)/2)) ∧ (-((1 : ℚ)/2) < 1) := by
  refine ⟨?_, by norm_num, by norm_num, by norm_num⟩
  norm_num [spawnParticle, initState, MAX_PARTICLES, emitterX, emitterY, emitterZ]

/-- C6 (amended): a freshly spawned particle has total lifetime
1.8 + u * 0.6 seconds with u the seventh random draw of the spawn, so the
lifetime lies in the range 1.2 to 2.4 seconds; it can fall below 1.8. -/
theorem C6_lifetime_range (stream : Nat → ℚ) (ex ey ez : ℚ) (s : SimState)
    (h1 : -1 ≤ stream (s.rngIdx + 6)) (h2 : stream (s.rngIdx + 6) ≤ 1)
    (hcap : s.particles.length < MAX_PARTICLES) :
    ∃ p : Particle, (spawnParticle stream ex ey ez s).particles = s.particles ++ [p] ∧
      p.life = 18/10 + stream (s.rngIdx + 6) * (6/10) ∧
      6/5 ≤ p.life ∧ p.life ≤ 12/5 := by
  unfold spawnParticle
  rw [if_neg (by omega)]
  refine ⟨_, rfl, rfl, ?_, ?_⟩ <;> simp only [] <;> nlinarith

theorem C6_lifetime_range_witness :
    (-1 ≤ (fun _ => (0 : ℚ)) (initState.rngIdx + 6)) ∧
    ((fun _ => (0 : ℚ)) (initState.rngIdx + 6) ≤ 1) ∧
    initState.particles.length < MAX_PARTICLES ∧
    (∃ p : Particle, (spawnParticle (fun _ => 0) 0 0 0 initState).particles =
        initState.particles ++ [p] ∧
      p.life = 18/10 + (fun _ => (0 : ℚ)) (initState.rngIdx + 6) * (6/10) ∧
      6/5 ≤ p.life ∧ p.life ≤ 12/5) := by
  refine ⟨by norm_num, by norm_num, by decide, ?_⟩
  exact C6_lifetime_range (fun _ => 0) 0 0 0 initState (by norm_num) (by norm_num) (by decide)

/-! ## Reproducibility (C1) -/

/-- C1 counterexample: two runs of the program with the same seeded
random stream and the same one-element dt sequence, differing only in the
initial wall-clock value (0 versus 1 second since the clock epoch),
produce different particle positions after one frame: the wind term of
the integrator reads the absolute wall-clock time, not time derived from
the dt sequence.  The libm sine and cosine are instantiated with concrete
rational functions; the divergence only needs the wind phase
t * 1.3 + x * 10 to be mapped to different values at the two distinct
absolute times, which holds for the real sine as well. -/
theorem C1_counterexample :
    ((runMid (fun q => q) (fun q => q) (fun _ => 0) 0 [1/100]).1.particles.map Particle.x) ≠
    ((runMid (fun q => q) (fun q => q) (fun _ => 0) 1 [1/100]).1.particles.map Particle.x) := by
  have h : (⌈(3/2 : ℚ)⌉).toNat = 2 := by
    have h2 : ⌈(3/2 : ℚ)⌉ = 2 := by
      rw [Int.ceil_eq_iff]
      norm_num
    rw [h2]
    rfl
  norm_num [runMid, runSim, stepFrame, frameCore, spawnLoop, spawnFuel, h,
    spawnLoopAux, spawnParticle, updatePass, updateLoopAux, updateParticle,
    particleDead, swapInLast, clampDt, spawnRate, emitterX, emitterY,
    emitterZ, initState, MAX_PARTICLES]

/-- C1 (amended): the simulation is deterministic in its three run
inputs.  Two runs with the same seeded random stream, the same initial
wall-clock value and the same sequence of raw frame deltas produce
identical trajectories; fixing the seed and the dt sequence alone is not
enough, because the wind term depends on the absolute wall-clock time. -/
theorem C1_reproducible (sinf cosf : ℚ → ℚ) (str1 str2 : Nat → ℚ) (t0 t0A : ℚ)
    (dts : List ℚ) (hstream : ∀ i, str1 i = str2 i) (ht : t0 = t0A) :
    runMid sinf cosf str1 t0 dts = runMid sinf cosf str2 t0A dts := by
  rw [funext hstream, ht]

theorem C1_reproducible_witness :
    (∀ i : Nat, (fun _ => (0 : ℚ)) i = (fun _ => (0 : ℚ)) i) ∧ (0 : ℚ) = 0 ∧
    runMid (fun q => q) (fun q => q) (fun _ => 0) 0 [1/100, 1/50] =
      runMid (fun q => q) (fun q => q) (fun _ => 0) 0 [1/100, 1/50] :=
  ⟨fun _ => rfl, rfl,
   C1_reproducible (fun q => q) (fun q => q) (fun _ => 0) (fun _ => 0) 0 0 [1/100, 1/50]
     (fun _ => rfl) rfl⟩

/-! ## Time-step clamping (C3) -/

theorem clampDt_large (raw : ℚ) (h : 1/20 < raw) : clampDt raw = 1/20 := if_pos h

theorem clampDt_small (raw : ℚ) (h : raw ≤ 1/20) : clampDt raw = raw :=
  if_neg (not_lt.mpr h)

/-- C3 (amended): a raw frame delta larger than 0.05 s is replaced by
0.05 s before the frame body runs, so the emission-rate accumulation, the
force updates and the position updates of that frame all use 0.05 s; a
raw delta of at most 0.05 s — including any negative delta — is passed
through unchanged. -/
theorem C3_clamp (sinf cosf : ℚ → ℚ) (stream : Nat → ℚ) (rate ex ey ez : ℚ)
    (s : SimState) (tPrev raw : ℚ) (h : 1/20 < raw) :
    clampDt raw = 1/20 ∧
    stepFrame sinf cosf stream rate ex ey ez s tPrev raw =
      (frameCore sinf cosf stream rate ex ey ez s (tPrev + raw) (1/20), tPrev + raw) ∧
    (∀ raw2 : ℚ, raw2 ≤ 1/20 → clampDt raw2 = raw2) := by
  refine ⟨clampDt_large raw h, ?_, fun raw2 h2 => clampDt_small raw2 h2⟩
  rw [stepFrame, clampDt_large raw h]

theorem C3_clamp_witness :
    (1/20 : ℚ) < 10 ∧
    stepFrame (fun _ => 0) (fun _ => 0) (fun _ => 0) 150 0 (-(6/10)) 0 initState 0 10 =
      (frameCore (fun _ => 0) (fun _ => 0) (fun _ => 0) 150 0 (-(6/10)) 0 initState (0 + 10)
        (1/20), 0 + 10) := by
  have h : (1/20 : ℚ) < 10 := by norm_num
  exact ⟨h, (C3_clamp (fun _ => 0) (fun _ => 0) (fun _ => 0) 150 0 (-(6/10)) 0 initState 0 10
    h).2.1⟩

/-! ## The spawn while-loop: floor-and-carry characterization -/

theorem spawnParticle_setAcc (stream : Nat → ℚ) (ex ey ez b : ℚ) (s : SimState) :
    spawnParticle stream ex ey ez { particles := s.particles, spawnAcc := b, rngIdx := s.rngIdx } =
    { particles := (spawnParticle stream ex ey ez s).particles, spawnAcc := b,
      rngIdx := (spawnParticle stream ex ey ez s).rngIdx } := by
  unfold spawnParticle
  by_cases h : MAX_PARTICLES ≤ s.particles.length
  · rw [if_pos h, if_pos h]
  · rw [if_neg h, if_neg h]

theorem spawnN_setAcc (stream : Nat → ℚ) (ex ey ez : ℚ) :
    ∀ (n : Nat) (s : SimState) (b : ℚ),
    spawnN stream ex ey ez n { particles := s.particles, spawnAcc := b, rngIdx := s.rngIdx } =
    { particles := (spawnN stream ex ey ez n s).particles, spawnAcc := b,
      rngIdx := (spawnN stream ex ey ez n s).rngIdx }
  | 0, s, b => rfl
  | n + 1, s, b => by
    show spawnN stream ex ey ez n
        (spawnParticle stream ex ey ez { particles := s.particles, spawnAcc := b, rngIdx := s.rngIdx }) = _
    rw [spawnParticle_setAcc]
    exact spawnN_setAcc stream ex ey ez n (spawnParticle stream ex ey ez s) b

theorem spawnLoopAux_spec (stream : Nat → ℚ) (ex ey ez : ℚ) :
    ∀ (fuel : Nat) (s : SimState),
    spawnLoopAux stream ex ey ez fuel s =
    { particles := (spawnN stream ex ey ez (spawnIterAux fuel s.spawnAcc).1 s).particles
      spawnAcc := (spawnIterAux fuel s.spawnAcc).2
      rngIdx := (spawnN stream ex ey ez (spawnIterAux fuel s.spawnAcc).1 s).rngIdx }
  | 0, s => rfl
  | fuel + 1, s => by
    by_cases h : 1 ≤ s.spawnAcc
    · have hstep :
          spawnLoopAux stream ex ey ez (fuel + 1) s =
          spawnLoopAux stream ex ey ez fuel
            { particles := (spawnParticle stream ex ey ez s).particles
              spawnAcc := (spawnParticle stream ex ey ez s).spawnAcc - 1
              rngIdx := (spawnParticle stream ex ey ez s).rngIdx } := by
        simp only [spawnLoopAux]
        rw [if_pos h]
      rw [hstep, spawnLoopAux_spec stream ex ey ez fuel, spawnParticle_spawnAcc]
      have hiter : spawnIterAux (fuel + 1) s.spawnAcc =
          ((spawnIterAux fuel (s.spawnAcc - 1)).1 + 1, (spawnIterAux fuel (s.spawnAcc - 1)).2) := by
        simp only [spawnIterAux]
        rw [if_pos h]
      rw [hiter]
      have hsp : spawnN stream ex ey ez ((spawnIterAux fuel (s.spawnAcc - 1)).1 + 1) s =
          spawnN stream ex ey ez (spawnIterAux fuel (s.spawnAcc - 1)).1
            (spawnParticle stream ex ey ez s) := rfl
      rw [hsp]
      have hset := spawnN_setAcc stream ex ey ez (spawnIterAux fuel (s.spawnAcc - 1)).1
        (spawnParticle stream ex ey ez s) (s.spawnAcc - 1)
      rw [hset]
    · have hstop : spawnLoopAux stream ex ey ez (fuel + 1) s = s := by
        simp only [spawnLoopAux]
        rw [if_neg h]
      have hiter : spawnIterAux (fuel + 1) s.spawnAcc = (0, s.spawnAcc) := by
        simp only [spawnIterAux]
        rw [if_neg h]
      rw [hstop, hiter]
      rfl

theorem spawnLoop_spec (stream : Nat → ℚ) (ex ey ez : ℚ) (s : SimState) :
    spawnLoop stream ex ey ez s =
    { particles := (spawnN stream ex ey ez (spawnIter s.spawnAcc).1 s).particles
      spawnAcc := (spawnIter s.spawnAcc).2
      rngIdx := (spawnN stream ex ey ez (spawnIter s.spawnAcc).1 s).rngIdx } :=
  spawnLoopAux_spec stream ex ey ez (spawnFuel s.spawnAcc) s

theorem spawnIterAux_spec :
    ∀ (fuel : Nat) (a : ℚ), 0 ≤ a → spawnFuel a ≤ fuel →
    spawnIterAux fuel a = (Int.toNat ⌊a⌋, a - ⌊a⌋)
  | 0, a, h0, hf => by
    have hceil : ⌈a⌉ ≤ 0 := by
      have := Nat.le_zero.mp hf
      unfold spawnFuel at this
      omega
    have ha : a ≤ 0 := by
      have := Int.ceil_le.mp hceil
      simpa using this
    have haz : a = 0 := le_antisymm ha h0
    subst haz
    simp [spawnIterAux]
  | fuel + 1, a, h0, hf => by
    by_cases h : 1 ≤ a
    · have hfloor1 : 1 ≤ ⌊a⌋ := by
        rw [Int.le_floor]
        exact_mod_cast h
      have hceil1 : 1 ≤ ⌈a⌉ := le_trans hfloor1 (Int.floor_le_ceil a)
      have hsub : 0 ≤ a - 1 := by linarith
      have hfuel : spawnFuel (a - 1) ≤ fuel := by
        unfold spawnFuel at hf ⊢
        have : ⌈a - 1⌉ = ⌈a⌉ - 1 := by
          simp
        rw [this]
        omega
      have hrec := spawnIterAux_spec fuel (a - 1) hsub hfuel
      unfold spawnIterAux
      rw [if_pos h]
      rw [hrec]
      have hfl : ⌊a - 1⌋ = ⌊a⌋ - 1 := by
        simp
      refine Prod.ext ?_ ?_
      · show Int.toNat ⌊a - 1⌋ + 1 = Int.toNat ⌊a⌋
        rw [hfl]
        omega
      · show a - 1 - ⌊a - 1⌋ = a - ⌊a⌋
        rw [hfl]
        push_cast
        ring
    · have hfl : ⌊a⌋ = 0 := by
        rw [Int.floor_eq_zero_iff]
        constructor
        · exact h0
        · exact lt_of_not_le h
      unfold spawnIterAux
      rw [if_neg h, hfl]
      simp

theorem spawnIter_spec (a : ℚ) (h : 0 ≤ a) :
    spawnIter a = (Int.toNat ⌊a⌋, a - ⌊a⌋) :=
  spawnIterAux_spec (spawnFuel a) a h le_rfl

theorem frameCore_spawnAcc (sinf cosf : ℚ → ℚ) (stream : Nat → ℚ) (rate ex ey ez : ℚ)
    (s : SimState) (t dt : ℚ) :
    (frameCore sinf cosf stream rate ex ey ez s t dt).spawnAcc =
      frameAcc rate dt s.spawnAcc := by
  show (spawnLoop stream ex ey ez
      { particles := s.particles, spawnAcc := s.spawnAcc + dt * rate, rngIdx := s.rngIdx }).spawnAcc = _
  rw [spawnLoop_spec]
  rfl

theorem frameAcc_bounds (rate dt a : ℚ) (h : 0 ≤ a + dt * rate) :
    frameAcc rate dt a = (a + dt * rate) - ⌊a + dt * rate⌋ ∧
    0 ≤ frameAcc rate dt a ∧ frameAcc rate dt a < 1 := by
  unfold frameAcc
  rw [spawnIter_spec _ h]
  refine ⟨rfl, ?_, ?_⟩
  · have := Int.floor_le (a + dt * rate)
    simp only []
    linarith
  · have := Int.lt_floor_add_one (a + dt * rate)
    simp only []
    linarith

theorem frameSpawnCount_floor (rate dt a : ℚ) (h : 0 ≤ a + dt * rate) :
    (frameSpawnCount rate dt a : ℤ) = ⌊a + dt * rate⌋ := by
  unfold frameSpawnCount
  rw [spawnIter_spec _ h]
  exact Int.toNat_of_nonneg (Int.floor_nonneg.mpr h)

theorem accSeq_invariant (rate dt : ℚ) (hr : 0 ≤ rate) (hd : 0 ≤ dt) :
    ∀ n : Nat, 0 ≤ accSeq rate dt n ∧ accSeq rate dt n < 1 ∧
      accSeq rate dt n + totalSpawned rate dt n = n * (dt * rate)
  | 0 => by
    refine ⟨le_refl 0, by norm_num [accSeq], ?_⟩
    simp [accSeq, totalSpawned]
  | n + 1 => by
    obtain ⟨h0, h1, hsum⟩ := accSeq_invariant rate dt hr hd n
    have hpos : 0 ≤ accSeq rate dt n + dt * rate :=
      add_nonneg h0 (mul_nonneg hd hr)
    have hb := frameAcc_bounds rate dt (accSeq rate dt n) hpos
    have hc := frameSpawnCount_floor rate dt (accSeq rate dt n) hpos
    have hstep : accSeq rate dt (n + 1) = frameAcc rate dt (accSeq rate dt n) := rfl
    have htot : totalSpawned rate dt (n + 1) =
        totalSpawned rate dt n + frameSpawnCount rate dt (accSeq rate dt n) := rfl
    refine ⟨hstep ▸ hb.2.1, hstep ▸ hb.2.2, ?_⟩
    rw [hstep, htot, hb.1]
    have hcq : (frameSpawnCount rate dt (accSeq rate dt n) : ℚ) =
        ((⌊accSeq rate dt n + dt * rate⌋ : ℤ) : ℚ) := by
      exact_mod_cast congrArg (fun z : ℤ => (z : ℚ)) hc
    push_cast
    push_cast at hcq
    rw [hcq]
    linarith [hsum]

/-- C5: the emitter converts the continuous rate into whole spawns by
floor with carry — a frame entered with accumulator `a` issues exactly
⌊a + dt * rate⌋ spawn calls and retains the fractional remainder — and
over `n` constant-`dt`, constant-`rate` frames from a zero accumulator the
exact total of spawn calls is ⌊rate * n * dt⌋ (so in particular within ±1
of it).  The last two conjuncts tie the counting functions to the frame
of the program: the frame accumulator follows frameAcc, and the spawn
while-loop performs exactly (spawnIter a).1 spawnParticle calls. -/
theorem C5_rate_accuracy (rate dt : ℚ) (hr : 0 ≤ rate) (hd : 0 ≤ dt) (n : Nat) :
    (∀ a : ℚ, 0 ≤ a →
      (frameSpawnCount rate dt a : ℤ) = ⌊a + dt * rate⌋ ∧
      frameAcc rate dt a = (a + dt * rate) - ⌊a + dt * rate⌋) ∧
    (totalSpawned rate dt n : ℤ) = ⌊rate * (n : ℚ) * dt⌋ ∧
    (∀ (sinf cosf : ℚ → ℚ) (stream : Nat → ℚ) (ex ey ez : ℚ) (s : SimState) (t : ℚ),
      (frameCore sinf cosf stream rate ex ey ez s t dt).spawnAcc =
        frameAcc rate dt s.spawnAcc) ∧
    (∀ (stream : Nat → ℚ) (ex ey ez : ℚ) (s : SimState),
      spawnLoop stream ex ey ez s =
        { particles := (spawnN stream ex ey ez (spawnIter s.spawnAcc).1 s).particles
          spawnAcc := (spawnIter s.spawnAcc).2
          rngIdx := (spawnN stream ex ey ez (spawnIter s.spawnAcc).1 s).rngIdx }) := by
  refine ⟨?_, ?_, ?_, ?_⟩
  · intro a ha
    have hpos : 0 ≤ a + dt * rate := add_nonneg ha (mul_nonneg hd hr)
    exact ⟨frameSpawnCount_floor rate dt a hpos, (frameAcc_bounds rate dt a hpos).1⟩
  · obtain ⟨h0, h1, hsum⟩ := accSeq_invariant rate dt hr hd n
    have hflip : rate * (n : ℚ) * dt = (n : ℚ) * (dt * rate) := by ring
    rw [hflip]
    symm
    rw [Int.floor_eq_iff]
    constructor
    · push_cast
      linarith
    · push_cast
      linarith
  · intro sinf cosf stream ex ey ez s t
    exact frameCore_spawnAcc sinf cosf stream rate ex ey ez s t dt
  · intro stream ex ey ez s
    exact spawnLoop_spec stream ex ey ez s

theorem C5_rate_accuracy_witness :
    (0 : ℚ) ≤ 150 ∧ (0 : ℚ) ≤ 1/100 ∧
    (totalSpawned 150 (1/100) 3 : ℤ) = ⌊(150 : ℚ) * (3 : Nat) * (1/100)⌋ :=
  ⟨by norm_num, by norm_num,
   (C5_rate_accuracy 150 (1/100) (by norm_num) (by norm_num) 3).2.1⟩

/-- C3 counterexample: a negative raw delta is not clamped.  With raw
delta -1 the frame runs with dt = -1 — its spawn accumulator becomes
0 + (-1) * 150 = -150 — whereas clamping the delta to 0.05 s as the claim
describes would leave accumulator 0.5 after the frame.  So a negative dt
reaches the emission-rate accumulation unclamped. -/
theorem C3_counterexample :
    (stepFrame (fun _ => 0) (fun _ => 0) (fun _ => 0) 150 0 (-(6/10)) 0 initState
        0 (-1)).1.spawnAcc ≠
    (frameCore (fun _ => 0) (fun _ => 0) (fun _ => 0) 150 0 (-(6/10)) 0 initState
        (0 + -1) (1/20)).spawnAcc := by
  have hcl : clampDt (-1) = -1 := clampDt_small (-1) (by norm_num)
  have h1 : (stepFrame (fun _ => 0) (fun _ => 0) (fun _ => 0) 150 0 (-(6/10)) 0 initState
      0 (-1)).1 =
      frameCore (fun _ => 0) (fun _ => 0) (fun _ => 0) 150 0 (-(6/10)) 0 initState
        (0 + -1) (-1) := by
    rw [stepFrame, hcl]
  rw [h1, frameCore_spawnAcc, frameCore_spawnAcc]
  show frameAcc 150 (-1) 0 ≠ frameAcc 150 (1/20) 0
  have hL : frameAcc 150 (-1) (0 : ℚ) = -150 := by
    unfold frameAcc spawnIter spawnFuel
    rw [show ((0 : ℚ) + (-1) * 150) = ((-150 : ℤ) : ℚ) by norm_num, Int.ceil_intCast]
    rfl
  have hR : frameAcc 150 (1/20) (0 : ℚ) = 1/2 := by
    unfold frameAcc
    rw [spawnIter_spec _ (by norm_num)]
    show (0 : ℚ) + 1/20 * 150 - ⌊(0 : ℚ) + 1/20 * 150⌋ = 1/2
    rw [show ((0 : ℚ) + 1/20 * 150) = 15/2 by norm_num]
    rw [show ⌊(15/2 : ℚ)⌋ = 7 by rw [Int.floor_eq_iff]; norm_num]
    norm_num
  rw [hL, hR]
  norm_num

/-! ## The update pass: every survivor is updated exactly once (C10, C4) -/

theorem swapInLast_perm (l : List Particle) : (swapInLast l).Perm l := by
  unfold swapInLast
  match h : l.getLast? with
  | none =>
    have : l = [] := List.getLast?_eq_none_iff.mp h
    rw [this]
  | some q =>
    have hq : l.dropLast ++ [q] = l := List.dropLast_append_getLast? q h
    calc (q :: l.dropLast).Perm (l.dropLast ++ [q]) :=
      (List.perm_append_singleton q l.dropLast).symm
    _ = l := hq

theorem particleDead_iff (p : Particle) :
    particleDead p = true ↔ (p.life ≤ 0 ∨ 12/10 < p.y) := by
  simp [particleDead]

theorem updateLoopAux_perm (upd : Particle → Particle) :
    ∀ front back : List Particle,
    (updateLoopAux upd front back).Perm
      ((front.map upd).filter (fun q => !particleDead q) ++ back)
  | [], back => by simp [updateLoopAux]
  | p :: front, back => by
    simp only [updateLoopAux, List.map_cons, List.filter_cons]
    by_cases h : particleDead (upd p) = true
    · rw [if_pos h]
      have hrec := updateLoopAux_perm upd front (swapInLast back)
      rw [h]
      simp only [Bool.not_true, Bool.false_eq_true, if_false]
      exact hrec.trans (List.Perm.append_left _ (swapInLast_perm back))
    · rw [if_neg h]
      have hb : particleDead (upd p) = false := by
        cases hx : particleDead (upd p)
        · rfl
        · exact absurd hx h
      rw [hb]
      simp only [Bool.not_false, if_true]
      have hrec := updateLoopAux_perm upd front (upd p :: back)
      refine hrec.trans ?_
      exact List.perm_middle

theorem updatePass_perm (sinf cosf : ℚ → ℚ) (t dt : ℚ) (v : List Particle) :
    (updatePass sinf cosf t dt v).Perm
      ((v.map (updateParticle sinf cosf t dt)).filter (fun q => !particleDead q)) := by
  unfold updatePass
  have h1 := updateLoopAux_perm (updateParticle sinf cosf t dt) v.reverse []
  rw [List.append_nil] at h1
  refine h1.trans ?_
  rw [List.map_reverse]
  exact ((v.map (updateParticle sinf cosf t dt)).reverse_perm).filter _

/-- C10: one pass of the downward-iterating update loop with swap-pop
removal touches each original particle exactly once: the resulting pool is
a permutation of the once-updated originals that survive the death test.
No surviving particle is skipped or updated twice, even though removals
move already-processed particles into lower slots mid-iteration. -/
theorem C10_update_once (sinf cosf : ℚ → ℚ) (t dt : ℚ) (v : List Particle) :
    (updatePass sinf cosf t dt v).Perm
      ((v.map (updateParticle sinf cosf t dt)).filter (fun q => !particleDead q)) :=
  updatePass_perm sinf cosf t dt v

theorem updatePass_singleton (sinf cosf : ℚ → ℚ) (t dt : ℚ) (p : Particle) :
    updatePass sinf cosf t dt [p] =
      if particleDead (updateParticle sinf cosf t dt p) = true then []
      else [updateParticle sinf cosf t dt p] := by
  show updateLoopAux _ [p] [] = _
  simp only [updateLoopAux]
  by_cases h : particleDead (updateParticle sinf cosf t dt p) = true
  · rw [if_pos h, if_pos h]
    rfl
  · rw [if_neg h, if_neg h]

theorem grounded_step (sinf cosf : ℚ → ℚ) (t dt : ℚ) (p : Particle)
    (hy : p.y = 0) (hvy : p.vy = 0) :
    (updateParticle sinf cosf t dt p).y = 0 ∧
    (updateParticle sinf cosf t dt p).vy = 0 ∧
    (updateParticle sinf cosf t dt p).life = p.life - dt := by
  refine ⟨?_, ?_, rfl⟩ <;> simp [updateParticle, hy, hvy]

theorem grounded_alive (sinf cosf : ℚ → ℚ) (t dt : ℚ) (p : Particle)
    (hy : p.y = 0) (hvy : p.vy = 0) (hl : 0 < p.life - dt) :
    particleDead (updateParticle sinf cosf t dt p) = false := by
  obtain ⟨h1, _, h3⟩ := grounded_step sinf cosf t dt p hy hvy
  simp only [particleDead, h1, h3, Bool.or_eq_false_iff, decide_eq_false_iff_not]
  constructor
  · linarith
  · norm_num

theorem grounded_pass (sinf cosf : ℚ → ℚ) (t dt : ℚ) (p : Particle)
    (hy : p.y = 0) (hvy : p.vy = 0) (hl : 0 < p.life - dt) :
    updatePass sinf cosf t dt [p] = [updateParticle sinf cosf t dt p] := by
  rw [updatePass_singleton, grounded_alive sinf cosf t dt p hy hvy hl]
  simp

/-- C4: a particle is removed by the update pass exactly when its
decremented life is at or below zero or its updated y position exceeds the
1.2 ceiling (first conjunct); and the spec expiry scenario holds at the
integrator level: one particle with remaining life 2.0 s, at rest at
height 0, stepped four times at dt = 0.5 s, survives the first three
passes (still one particle of life 0.5 s) and is removed exactly by the
fourth pass, its remaining life reaching exactly 0.  The wall-clock times
of the four frames and the wind functions are arbitrary. -/
theorem C4_expiry (sinf cosf : ℚ → ℚ) (t1 t2 t3 t4 x0 z0 vx0 vz0 sz : ℚ) :
    (∀ (t dt : ℚ) (p : Particle),
        updatePass sinf cosf t dt [p] = [] ↔
          ((updateParticle sinf cosf t dt p).life ≤ 0 ∨
            12/10 < (updateParticle sinf cosf t dt p).y)) ∧
    (updatePass sinf cosf t3 (1/2) (updatePass sinf cosf t2 (1/2) (updatePass sinf cosf t1 (1/2)
        [{ x := x0, y := 0, z := z0, vx := vx0, vy := 0, vz := vz0, life := 2, size := sz }]))).length
      = 1 ∧
    (updatePass sinf cosf t3 (1/2) (updatePass sinf cosf t2 (1/2) (updatePass sinf cosf t1 (1/2)
        [{ x := x0, y := 0, z := z0, vx := vx0, vy := 0, vz := vz0, life := 2, size := sz }]))).map
      Particle.life = [1/2] ∧
    (updatePass sinf cosf t3 (1/2) (updatePass sinf cosf t2 (1/2) (updatePass sinf cosf t1 (1/2)
        [{ x := x0, y := 0, z := z0, vx := vx0, vy := 0, vz := vz0, life := 2, size := sz }]))).map
      (fun q => (updateParticle sinf cosf t4 (1/2) q).life) = [0] ∧
    updatePass sinf cosf t4 (1/2)
      (updatePass sinf cosf t3 (1/2) (updatePass sinf cosf t2 (1/2) (updatePass sinf cosf t1 (1/2)
        [{ x := x0, y := 0, z := z0, vx := vx0, vy := 0, vz := vz0, life := 2, size := sz }])))
      = [] := by
  have hiff : ∀ (t dt : ℚ) (p : Particle),
      updatePass sinf cosf t dt [p] = [] ↔
        ((updateParticle sinf cosf t dt p).life ≤ 0 ∨
          12/10 < (updateParticle sinf cosf t dt p).y) := by
    intro t dt p
    rw [updatePass_singleton]
    by_cases h : particleDead (updateParticle sinf cosf t dt p) = true
    · rw [if_pos h]
      exact ⟨fun _ => (particleDead_iff _).mp h, fun _ => rfl⟩
    · rw [if_neg h]
      constructor
      · intro hx
        exact absurd hx (by simp)
      · intro hcond
        exact absurd ((particleDead_iff _).mpr hcond) h
  set p0 : Particle :=
    { x := x0, y := 0, z := z0, vx := vx0, vy := 0, vz := vz0, life := 2, size := sz } with hp0
  set p1 := updateParticle sinf cosf t1 (1/2) p0 with hp1
  obtain ⟨h1y, h1vy, h1l⟩ := grounded_step sinf cosf t1 (1/2) p0 rfl rfl
  rw [show p0.life = 2 from rfl] at h1l
  set p2 := updateParticle sinf cosf t2 (1/2) p1 with hp2
  obtain ⟨h2y, h2vy, h2l⟩ := grounded_step sinf cosf t2 (1/2) p1 h1y h1vy
  rw [h1l] at h2l
  set p3 := updateParticle sinf cosf t3 (1/2) p2 with hp3
  obtain ⟨h3y, h3vy, h3l⟩ := grounded_step sinf cosf t3 (1/2) p2 h2y h2vy
  rw [h2l] at h3l
  have h3lv : p3.life = 1/2 := by rw [h3l]; norm_num
  have e1 : updatePass sinf cosf t1 (1/2) [p0] = [p1] :=
    grounded_pass sinf cosf t1 (1/2) p0 rfl rfl (by norm_num [hp0])
  have e2 : updatePass sinf cosf t2 (1/2) [p1] = [p2] :=
    grounded_pass sinf cosf t2 (1/2) p1 h1y h1vy (by rw [h1l]; norm_num)
  have e3 : updatePass sinf cosf t3 (1/2) [p2] = [p3] :=
    grounded_pass sinf cosf t3 (1/2) p2 h2y h2vy (by rw [h2l]; norm_num)
  have h4l : (updateParticle sinf cosf t4 (1/2) p3).life = 0 := by
    have := (grounded_step sinf cosf t4 (1/2) p3 h3y h3vy).2.2
    rw [this, h3lv]
    norm_num
  have e4 : updatePass sinf cosf t4 (1/2) [p3] = [] := by
    rw [updatePass_singleton, if_pos]
    rw [particleDead_iff]
    left
    rw [h4l]
  have F3 : updatePass sinf cosf t3 (1/2)
      (updatePass sinf cosf t2 (1/2) (updatePass sinf cosf t1 (1/2) [p0])) = [p3] := by
    rw [e1, e2, e3]
  refine ⟨hiff, ?_, ?_, ?_, ?_⟩
  · rw [F3]
    rfl
  · rw [F3, List.map_singleton, h3lv]
  · rw [F3, List.map_singleton, h4l]
  · rw [F3, e4]

theorem packBuffer_length : ∀ ps : List Particle, (packBuffer ps).length = 4 * ps.length
  | [] => rfl
  | p :: ps => by
    show (p.x :: p.y :: p.z :: p.size :: packBuffer ps).length = 4 * (ps.length + 1)
    simp only [List.length_cons, packBuffer_length ps]
    omega

/-- C9 counterexample: with an empty live set the draw call is still
issued — glDrawArrays at mid.cpp line 309 is unconditional and receives a
point count of 0 — so the draw call is not skipped as the claim states
(only the glBufferSubData upload is guarded). -/
theorem C9_counterexample :
    (renderFrame []).drawIssued = true ∧ (renderFrame []).drawCount = 0 :=
  ⟨rfl, rfl⟩

/-- C9 (amended): an empty live set is a valid steady state handled
without failure: the packed buffer is empty and well formed (its length is
4 * liveCount for every pool, hence 0), the glBufferSubData upload is
skipped, and the draw call is issued with a vertex count of 0 — drawing
nothing — rather than skipped. -/
theorem C9_empty_pool :
    (∀ ps : List Particle, (renderFrame ps).buffer.length = 4 * ps.length) ∧
    (renderFrame []).buffer = [] ∧
    (renderFrame []).uploadIssued = false ∧
    (renderFrame []).drawIssued = true ∧
    (renderFrame []).drawCount = 0 :=
  ⟨fun ps => packBuffer_length ps, rfl, rfl, rfl, rfl⟩

theorem v3len_normalize (v : Vec3) (h : v3len v ≠ 0) : v3len (v3normalize v) = 1 := by
  have hnn : (0 : ℝ) ≤ v.x ^ 2 + v.y ^ 2 + v.z ^ 2 := by positivity
  have hsq : (v3len v) ^ 2 = v.x ^ 2 + v.y ^ 2 + v.z ^ 2 := Real.sq_sqrt hnn
  show Real.sqrt ((1 / v3len v * v.x) ^ 2 + (1 / v3len v * v.y) ^ 2 +
      (1 / v3len v * v.z) ^ 2) = 1
  rw [show (1 / v3len v * v.x) ^ 2 + (1 / v3len v * v.y) ^ 2 + (1 / v3len v * v.z) ^ 2 =
      (v.x ^ 2 + v.y ^ 2 + v.z ^ 2) * (1 / v3len v) ^ 2 from by ring]
  rw [← hsq]
  rw [show (v3len v) ^ 2 * (1 / v3len v) ^ 2 = 1 from by field_simp]
  exact Real.sqrt_one

theorem geomExpandAll_length (camR camU : Vec3) :
    ∀ pts : List (Vec3 × ℝ), (geomExpandAll camR camU pts).length = 4 * pts.length
  | [] => rfl
  | pt :: pts => by
    show (geomExpand camR camU pt.1 pt.2 ++ geomExpandAll camR camU pts).length =
      4 * (pts.length + 1)
    rw [List.length_append, geomExpandAll_length camR camU pts]
    rw [show (geomExpand camR camU pt.1 pt.2).length = 4 from rfl]
    omega

/-- C7 (amended): the mid.cpp geometry shader scales the camera right and
up vectors to unit length, multiplies them by the particle size, and emits
exactly the four triangle-strip corners center ± right ± up with texture
coordinates (0,0), (0,1), (1,0), (1,1) matching the emission order, so the
stage output over a frame has 4 * liveCount vertices; the midterm.cpp
variant also emits exactly four strip vertices per point with texture
coordinates matching the corner signs, but uses the view-matrix row
vectors without normalization and a half-extent of 0.18 * alpha in place
of a per-particle size. -/
theorem C7_billboard (camR camU center : Vec3) (s : ℝ) (pts : List (Vec3 × ℝ))
    (hR : v3len camR ≠ 0) (hU : v3len camU ≠ 0) :
    v3len (v3normalize camR) = 1 ∧ v3len (v3normalize camU) = 1 ∧
    geomExpand camR camU center s =
      [ ⟨v3sub (v3sub center (v3scale s (v3normalize camR))) (v3scale s (v3normalize camU)), 0, 0⟩,
        ⟨v3add (v3sub center (v3scale s (v3normalize camR))) (v3scale s (v3normalize camU)), 0, 1⟩,
        ⟨v3sub (v3add center (v3scale s (v3normalize camR))) (v3scale s (v3normalize camU)), 1, 0⟩,
        ⟨v3add (v3add center (v3scale s (v3normalize camR))) (v3scale s (v3normalize camU)), 1, 1⟩ ] ∧
    (geomExpandAll camR camU pts).length = 4 * pts.length ∧
    (∀ (r u c : Vec3) (alpha : ℝ),
      particleGSExpand r u c alpha =
        [ ⟨v3add c (v3scale (18/100 * alpha) (v3sub (v3scale (-1) r) u)), 0, 0⟩,
          ⟨v3add c (v3scale (18/100 * alpha) (v3sub r u)), 1, 0⟩,
          ⟨v3add c (v3scale (18/100 * alpha) (v3add (v3scale (-1) r) u)), 0, 1⟩,
          ⟨v3add c (v3scale (18/100 * alpha) (v3add r u)), 1, 1⟩ ] ∧
      (particleGSExpand r u c alpha).length = 4) :=
  ⟨v3len_normalize camR hR, v3len_normalize camU hU, rfl,
   geomExpandAll_length camR camU pts, fun _ _ _ _ => ⟨rfl, rfl⟩⟩

theorem C7_billboard_witness :
    v3len ⟨1, 0, 0⟩ ≠ 0 ∧ v3len ⟨0, 1, 0⟩ ≠ 0 ∧
    v3len (v3normalize ⟨1, 0, 0⟩) = 1 := by
  have h1 : v3len ⟨1, 0, 0⟩ = 1 := by
    show Real.sqrt ((1 : ℝ) ^ 2 + 0 ^ 2 + 0 ^ 2) = 1
    rw [show ((1 : ℝ) ^ 2 + 0 ^ 2 + 0 ^ 2) = 1 by norm_num]
    exact Real.sqrt_one
  have h2 : v3len ⟨0, 1, 0⟩ = 1 := by
    show Real.sqrt ((0 : ℝ) ^ 2 + 1 ^ 2 + 0 ^ 2) = 1
    rw [show ((0 : ℝ) ^ 2 + 1 ^ 2 + 0 ^ 2) = 1 by norm_num]
    exact Real.sqrt_one
  have hR : v3len (⟨1, 0, 0⟩ : Vec3) ≠ 0 := by rw [h1]; norm_num
  have hU : v3len (⟨0, 1, 0⟩ : Vec3) ≠ 0 := by rw [h2]; norm_num
  exact ⟨hR, hU,
    (C7_billboard ⟨1, 0, 0⟩ ⟨0, 1, 0⟩ ⟨0, 0, 0⟩ 1 [] hR hU).1⟩

/-- C7 counterexample: the midterm.cpp geometry shader does not scale the
camera right vector to unit length: doubling the right vector changes the
emitted corners, which is impossible for an expander that normalizes right
before use.  Compare right = (2,0,0) with right = (1,0,0). -/
theorem C7_counterexample :
    particleGSExpand ⟨2, 0, 0⟩ ⟨0, 1, 0⟩ ⟨0, 0, 0⟩ 1 ≠
    particleGSExpand ⟨1, 0, 0⟩ ⟨0, 1, 0⟩ ⟨0, 0, 0⟩ 1 := by
  intro h
  simp only [particleGSExpand, v3scale, v3add, v3sub, List.cons.injEq,
    GSVertex.mk.injEq, Vec3.mk.injEq] at h
  norm_num at h
theorem fragOutput_discard_iff (uv : ℝ × ℝ) (ga : ℝ) :
    fragOutput uv ga = none ↔ fragAlpha uv ga < 1/100 := by
  unfold fragOutput
  by_cases h : fragAlpha uv ga < 1/100
  · rw [if_pos h]
    exact ⟨fun _ => h, fun _ => rfl⟩
  · rw [if_neg h]
    constructor
    · intro hx
      exact absurd hx (by simp)
    · intro hc
      exact absurd hc h

theorem particleFSOut_discard_iff (uv : ℝ × ℝ) (ga : ℝ) :
    particleFSOut uv ga = none ↔ 1/2 < uvDist uv := by
  unfold particleFSOut
  by_cases h : 1/2 < uvDist uv
  · rw [if_pos h]
    exact ⟨fun _ => h, fun _ => rfl⟩
  · rw [if_neg h]
    constructor
    · intro hx
      exact absurd hx (by simp)
    · intro hc
      exact absurd hc h

/-- C8 (amended): in the mid.cpp fragment shader every fragment whose
computed alpha falls below the 0.01 threshold is discarded and every other
fragment is emitted with exactly that alpha — a hard cutoff on alpha; in
the midterm.cpp fragment shader the hard cutoff is on the distance from
the quad center (discard iff distance > 0.5), not on alpha. -/
theorem C8_alpha_threshold :
    (∀ (uv : ℝ × ℝ) (ga : ℝ), fragOutput uv ga = none ↔ fragAlpha uv ga < 1/100) ∧
    (∀ (uv : ℝ × ℝ) (ga : ℝ), ¬ fragAlpha uv ga < 1/100 →
      fragOutput uv ga = some (⟨9/10, 95/100, 1⟩, fragAlpha uv ga)) ∧
    (∀ (uv : ℝ × ℝ) (ga : ℝ), particleFSOut uv ga = none ↔ 1/2 < uvDist uv) := by
  refine ⟨fragOutput_discard_iff, ?_, particleFSOut_discard_iff⟩
  intro uv ga h
  unfold fragOutput
  rw [if_neg h]

theorem C8_alpha_threshold_witness :
    (¬ fragAlpha (1/2, 1/2) 1 < 1/100) ∧
    fragOutput (1/2, 1/2) 1 = some (⟨9/10, 95/100, 1⟩, fragAlpha (1/2, 1/2) 1) := by
  have hd : uvDist (1/2, 1/2) = 0 := by
    unfold uvDist
    rw [show ((1:ℝ)/2 - 1/2) ^ 2 + ((1:ℝ)/2 - 1/2) ^ 2 = 0 by norm_num]
    exact Real.sqrt_zero
  have hs : smoothstep (1/2) 0 0 = 1 := by
    unfold smoothstep
    rw [show ((0:ℝ) - 1/2) / (0 - 1/2) = 1 by norm_num]
    rw [min_self, max_eq_right (by norm_num : (0:ℝ) ≤ 1)]
    norm_num
  have ha : fragAlpha (1/2, 1/2) 1 = 1 := by
    unfold fragAlpha
    rw [hd, hs, Real.one_rpow, one_mul]
  have hnot : ¬ fragAlpha (1/2, 1/2) 1 < 1/100 := by
    rw [ha]
    norm_num
  exact ⟨hnot, C8_alpha_threshold.2.1 (1/2, 1/2) 1 hnot⟩

/-- C8 counterexample: in the midterm.cpp fragment shader a fragment at
texture coordinate (0.99, 0.5) with gAlpha = 1 has computed alpha
292/78125 = 0.0037376, below the 0.01 threshold, yet it is blended (the
output is some, not a discard), because that shader only discards on
distance from the quad center. -/
theorem C8_counterexample :
    ((292 : ℝ)/78125 < 1/100) ∧
    particleFSOut (99/100, 1/2) 1 = some (⟨85/100, 88/100, 92/100⟩, 292/78125) := by
  have hd : uvDist (99/100, 1/2) = 49/100 := by
    unfold uvDist
    rw [show ((99:ℝ)/100 - 1/2) ^ 2 + ((1:ℝ)/2 - 1/2) ^ 2 = (49/100) ^ 2 by norm_num]
    exact Real.sqrt_sq (by norm_num)
  have hs : smoothstep (1/2) (1/4) (49/100) = 73/15625 := by
    unfold smoothstep
    rw [show ((49:ℝ)/100 - 1/2) / (1/4 - 1/2) = 1/25 by norm_num]
    rw [min_eq_right (by norm_num : (1:ℝ)/25 ≤ 1), max_eq_right (by norm_num : (0:ℝ) ≤ 1/25)]
    norm_num
  refine ⟨by norm_num, ?_⟩
  unfold particleFSOut
  rw [hd]
  rw [if_neg (by norm_num : ¬ (1:ℝ)/2 < 49/100)]
  rw [hs]
  unfold v3mix
  norm_num

end Mid
